import Mathlib

/-!
Startup sequence of ddrv, `cmd/ddrv/main.go`

A shallow embedding of `main`: the command line flags, the chunk size
validation, the construction of the database connection, the chunk manager
and the DFS, the parsing of the passive FTP port range and the start of the
FTP and HTTP frontends.

Go strings are modelled as the sequence of their runes.  The constructors of
the other packages (`db.New`, `ddrv.NewManager`, `fs.New`, `ftp.New`,
`http.New`) are modelled symbolically: the value they return records the
arguments it was built from.  Whether `ddrv.NewManager` returns an error, and
the width of the platform `int`, are parameters (`Env`).  The Go standard
library functions `strings.Split` (for a one rune separator) and
`fmt.Sscanf` (for the format `%d-%d` and two `*int` operands) are modelled
after their Go implementation.
-/

namespace Ddrv

/-- A Go string, as the sequence of its runes. -/
abbrev GoString := List Char

/-! ## Command line flags -/

/-- The values of the flags declared at the top of `main.go`, after parsing. -/
structure Flags where
  FTPAddr : GoString
  FTPPortRange : GoString
  username : GoString
  password : GoString
  HTTPAddr : GoString
  dbConnStr : GoString
  webhooks : GoString
  chunkSize : Int
  deriving DecidableEq

/-- The flag values when only the two required flags (`--dburl`, `--webhooks`)
are given: the `Default(...)` of every other flag; `--httpaddr` has none. -/
def defaultFlags (dburl hooks : GoString) : Flags :=
  { FTPAddr := [':', '2', '5', '2', '5']
    FTPPortRange := []
    username := []
    password := []
    HTTPAddr := []
    dbConnStr := dburl
    webhooks := hooks
    chunkSize := 25165824 }

/-! ## `strings.Split` and `strings.Join` -/

/-- Model of `strings.Count(s, sep)` for a one rune separator. -/
def Count : GoString → Char → Nat
  | [], _ => 0
  | c :: cs, sep => (if c = sep then 1 else 0) + Count cs sep

/-- Model of `strings.Index(s, sep)` for a one rune separator; `none` stands for -1. -/
def Index : GoString → Char → Option Nat
  | [], _ => none
  | c :: cs, sep => if c = sep then some 0 else (Index cs sep).map (· + 1)

/-- The loop of `genSplit`: `k` is `n - i`, the number of iterations left. -/
def genSplitLoop (sep : Char) : Nat → GoString → List GoString
  | 0, s => [s]
  | k + 1, s =>
    match Index s sep with
    | none => [s]
    | some m => s.take m :: genSplitLoop sep k (s.drop (m + 1))

/-- Model of `genSplit(s, sep, 0, n)` with `n < 0`, for a one rune separator. -/
def genSplit (s : GoString) (sep : Char) : List GoString :=
  let n := Count s sep + 1
  let n := if n > s.length + 1 then s.length + 1 else n
  genSplitLoop sep (n - 1) s

/-- Model of `strings.Split(s, sep)` for a one rune separator. -/
def Split (s : GoString) (sep : Char) : List GoString :=
  genSplit s sep

/-- Model of `strings.Join(elems, sep)`. -/
def Join : List GoString → GoString → GoString
  | [], _ => []
  | [e], _ => e
  | e :: es, sep => e ++ (es.map (fun s => sep ++ s)).flatten

/-! ## `fmt.Sscanf(str, "%d-%d", &start, &end)` -/

/-- The errors of `strconv.ParseUint` / `strconv.ParseInt`. -/
inductive NumError where
  | ErrSyntax
  | ErrRange
  deriving DecidableEq

deriving instance DecidableEq for Except

/-- The errors with which the scan can end. -/
inductive ScanError where
  | unexpectedNewline
  | EOF
  | unexpectedEOF
  | expectedInteger
  | parse (e : NumError)
  | integerOverflow
  | inputDoesNotMatchFormat
  deriving DecidableEq

/-- The table `space` of `fmt/scan.go`. -/
def space : List (Nat × Nat) :=
  [(0x0009, 0x000d), (0x0020, 0x0020), (0x0085, 0x0085), (0x00a0, 0x00a0),
   (0x1680, 0x1680), (0x2000, 0x200a), (0x2028, 0x2029), (0x202f, 0x202f),
   (0x205f, 0x205f), (0x3000, 0x3000)]

/-- The loop of `isSpace` over the table. -/
def isSpaceLoop (rx : Nat) : List (Nat × Nat) → Bool
  | [] => false
  | rng :: rest =>
    if rx < rng.1 then false
    else if rx ≤ rng.2 then true
    else isSpaceLoop rx rest

/-- Model of `isSpace(r)` of `fmt/scan.go`. -/
def isSpace (r : Char) : Bool :=
  if r.toNat ≥ 2 ^ 16 then false else isSpaceLoop r.toNat space

/-- Model of `hugeWid`, the rune limit of a scan. -/
def hugeWid : Nat := 2 ^ 30

/-- The scan state: the input not yet read and the token buffer. -/
structure ss where
  rs : List Char
  buf : List Char
  deriving DecidableEq

/-- Model of `(*ss).SkipSpace` with `nlIsSpace = false`, on the unread input. -/
def SkipSpace : List Char → Except ScanError (List Char)
  | [] => .ok []
  | r :: rest =>
    if r = '\r' ∧ rest.head? = some '\n' then SkipSpace rest
    else if r = '\n' then .error .unexpectedNewline
    else if !isSpace r then .ok (r :: rest)
    else SkipSpace rest

/-- Model of `(*ss).accept(ok)`: consume the next rune when it is one of `ok`. -/
def accept (ok : List Char) (s : ss) : Bool × ss :=
  match s.rs with
  | [] => (false, s)
  | r :: rest => if r ∈ ok then (true, ⟨rest, s.buf ++ [r]⟩) else (false, s)

/-- The loop `for s.accept(digits) {}` of `scanNumber`. -/
def acceptLoop (ok : List Char) : List Char → List Char → ss
  | [], buf => ⟨[], buf⟩
  | r :: rest, buf =>
    if r ∈ ok then acceptLoop ok rest (buf ++ [r]) else ⟨r :: rest, buf⟩

/-- The constant `sign` of `fmt/scan.go`. -/
def sign : List Char := ['+', '-']

/-- The constant `decimalDigits` of `fmt/scan.go`. -/
def decimalDigits : List Char := ['0', '1', '2', '3', '4', '5', '6', '7', '8', '9']

/-- Model of `(*ss).scanNumber(digits, false)`. -/
def scanNumber (digits : List Char) (s : ss) : Except ScanError ss :=
  if s.rs = [] then .error .EOF
  else
    let (b, s1) := accept digits s
    if !b then .error .expectedInteger
    else .ok (acceptLoop digits s1.rs s1.buf)

/-- The digit loop of `strconv.ParseUint(s, 10, 64)`; the pair is Go's
`(value, error)`. -/
def ParseUintLoop (maxVal cutoff : Nat) : List Char → Nat → Nat × Option NumError
  | [], n => (n, none)
  | c :: cs, n =>
    if '0'.toNat ≤ c.toNat ∧ c.toNat ≤ '9'.toNat then
      let d := c.toNat - '0'.toNat
      if n ≥ cutoff then (maxVal, some .ErrRange)
      else
        let n := (n * 10) % 2 ^ 64
        let n1 := (n + d) % 2 ^ 64
        if n1 < n ∨ n1 > maxVal then (maxVal, some .ErrRange)
        else ParseUintLoop maxVal cutoff cs n1
    else (0, some .ErrSyntax)

/-- Model of `strconv.ParseUint(s, 10, 64)`. -/
def ParseUint (s : List Char) : Nat × Option NumError :=
  if s = [] then (0, some .ErrSyntax)
  else
    let maxUint64 := 2 ^ 64 - 1
    ParseUintLoop maxUint64 (maxUint64 / 10 + 1) s 0

/-- Model of `strconv.ParseInt(s, 10, 64)`. -/
def ParseInt (s : List Char) : Int × Option NumError :=
  match s with
  | [] => (0, some .ErrSyntax)
  | c :: cs =>
    let neg := c = '-'
    let s1 := if c = '+' then cs else if c = '-' then cs else c :: cs
    let (un, err) := ParseUint s1
    if err = some .ErrSyntax then (0, err)
    else
      let cutoff : Nat := 2 ^ 63
      if ¬ neg ∧ un ≥ cutoff then ((cutoff : Int) - 1, some .ErrRange)
      else if neg ∧ un > cutoff then (-(cutoff : Int), some .ErrRange)
      else (if neg then -(un : Int) else (un : Int), none)

/-- Two's complement wrap of an integer to `int64`. -/
def wrap64 (x : Int) : Int := (x + 2 ^ 63) % 2 ^ 64 - 2 ^ 63

/-- Model of `(*ss).scanInt('d', bitSize)`, after `scanOne` has emptied the buffer. -/
def scanInt (bitSize : Nat) (rs : List Char) : Except ScanError (Int × ss) :=
  match SkipSpace rs with
  | .error e => .error e
  | .ok rs =>
    if rs = [] then .error .EOF
    else
      let s := (accept sign ⟨rs, []⟩).2
      match scanNumber decimalDigits s with
      | .error e => .error e
      | .ok s =>
        match ParseInt s.buf with
        | (_, some err) => .error (.parse err)
        | (i, none) =>
          let x := wrap64 (i * 2 ^ (64 - bitSize)) / 2 ^ (64 - bitSize)
          if x ≠ i then .error .integerOverflow else .ok (i, s)

/-- Model of `(*ss).doScanf` on the format `%d-%d` with two `*int` operands. -/
def doScanf (intBits : Nat) (input : List Char) : Except ScanError (Int × Int) :=
  match SkipSpace input with
  | .error e => .error e
  | .ok rs =>
    match scanInt intBits rs with
    | .error e => .error e
    | .ok (start, s) =>
      match s.rs with
      | [] => .error .unexpectedEOF
      | r :: rest =>
        if r ≠ '-' then .error .inputDoesNotMatchFormat
        else
          match SkipSpace rest with
          | .error e => .error e
          | .ok rs =>
            match scanInt intBits rs with
            | .error e => .error e
            | .ok (stop, _) => .ok (start, stop)

/-- Model of `fmt.Sscanf(str, "%d-%d", &start, &end)` with `int` operands of
`intBits` bits: the scan reads at most `hugeWid` runes. -/
def Sscanf (intBits : Nat) (str : GoString) : Except ScanError (Int × Int) :=
  doScanf intBits (str.take hugeWid)

/-! ## The objects `main` builds -/

/-- The value of `db.New(connStr, debug)`. -/
structure DbConn where
  connStr : GoString
  debug : Bool
  deriving DecidableEq

/-- The manager returned by `ddrv.NewManager(chunkSize, webhooks)`. -/
structure Manager where
  chunkSize : Int
  webhooks : List GoString
  deriving DecidableEq

/-- The value of `fs.New(dbConn, mgr)`. -/
structure DFS where
  db : DbConn
  mgr : Manager
  deriving DecidableEq

/-- Model of `ftpsrvr.PortRange`. -/
structure PortRange where
  Start : Int
  End : Int
  deriving DecidableEq

/-- The value of `ftp.New(dfs, addr, ptr, username, password)`. -/
structure FtpServer where
  dfs : DFS
  addr : GoString
  ptr : Option PortRange
  username : GoString
  password : GoString
  deriving DecidableEq

/-- The value of `http.New(addr, dbConn, mgr)`. -/
structure HttpServer where
  addr : GoString
  db : DbConn
  mgr : Manager
  deriving DecidableEq

/-- The `log.Fatalf` calls of `main` before the servers are started. -/
inductive Fatal where
  | invalidChunkSize
  | failedToOpenMgr (err : GoString)
  | badFtpPortRange (err : ScanError)
  deriving DecidableEq

/-- The constructor calls `main` makes itself, in program order. -/
inductive Call where
  | dbNew (connStr : GoString) (debug : Bool)
  | NewManager (chunkSize : Int) (webhooks : List GoString)
  | fsNew (db : DbConn) (mgr : Manager)
  deriving DecidableEq

/-- How startup ends: a fatal error, or the goroutines that were started,
each with the server it constructs. -/
inductive Result where
  | fatal (f : Fatal)
  | serving (ftp : Option FtpServer) (http : Option HttpServer)
  deriving DecidableEq

/-- A run of `main` up to the receive on `errCh`. -/
structure Run where
  calls : List Call
  result : Result
  deriving DecidableEq

/-- What `main` does not decide: the width of `int` and whether
`ddrv.NewManager` returns an error. -/
structure Env where
  intBits : Nat
  NewManagerErr : Int → List GoString → Option GoString

/-- Lines 61-67: the port range pointer handed to the FTP server. -/
def portRange (intBits : Nat) (FTPPortRange : GoString) : Except ScanError (Option PortRange) :=
  if FTPPortRange ≠ [] then
    match Sscanf intBits FTPPortRange with
    | .error err => .error err
    | .ok (a, b) => .ok (some ⟨a, b⟩)
  else .ok none

/-- The function `main`, from the parsed flags to the start of the servers. -/
def main (env : Env) (fl : Flags) : Run :=
  if fl.chunkSize > 25 * 1024 * 1024 ∨ fl.chunkSize < 0 then
    ⟨[], .fatal .invalidChunkSize⟩
  else
    let dbConn : DbConn := ⟨fl.dbConnStr, false⟩
    let hooks := Split fl.webhooks ','
    let calls := [Call.dbNew fl.dbConnStr false, Call.NewManager fl.chunkSize hooks]
    match env.NewManagerErr fl.chunkSize hooks with
    | some err => ⟨calls, .fatal (.failedToOpenMgr err)⟩
    | none =>
      let mgr : Manager := ⟨fl.chunkSize, hooks⟩
      let dfs : DFS := ⟨dbConn, mgr⟩
      let calls := calls ++ [Call.fsNew dbConn mgr]
      match portRange env.intBits fl.FTPPortRange with
      | .error err => ⟨calls, .fatal (.badFtpPortRange err)⟩
      | .ok ptr =>
        ⟨calls, .serving
          (if fl.FTPAddr ≠ [] then
            some ⟨dfs, fl.FTPAddr, ptr, fl.username, fl.password⟩ else none)
          (if fl.HTTPAddr ≠ [] then some ⟨fl.HTTPAddr, dbConn, mgr⟩ else none)⟩

/-- What the serve call of each frontend returns, when it returns at all
(`none`: it serves forever). -/
structure ServeEnv where
  ftpRet : Option GoString
  httpRet : Option GoString

/-- The values sent on `errCh`: one by each started goroutine whose serve
call returns.  `main` receives one of them, and blocks when there is none. -/
def errChSends (r : Result) (se : ServeEnv) : List GoString :=
  match r with
  | .fatal _ => []
  | .serving ftp http =>
    (ftp.bind fun _ => se.ftpRet).toList ++ (http.bind fun _ => se.httpRet).toList

/-- The decimal digit `d < 10` as a rune. -/
def digitChar (d : Nat) : Char :=
  match d with
  | 0 => '0' | 1 => '1' | 2 => '2' | 3 => '3' | 4 => '4'
  | 5 => '5' | 6 => '6' | 7 => '7' | 8 => '8' | _ => '9'

/-- The digit loop of the decimal formatting of a natural number: the digits
are produced from the least significant one, in front of `acc`. -/
def decimalLoop : Nat → Nat → List Char → List Char
  | 0, _, acc => acc
  | k + 1, n, acc =>
    if n < 10 then digitChar n :: acc
    else decimalLoop k (n / 10) (digitChar (n % 10) :: acc)

/-- The decimal digits of a natural number, most significant first. -/
def decimal (n : Nat) : List Char :=
  decimalLoop (n + 1) n []

/-- An environment of a 64-bit platform where `ddrv.NewManager` succeeds. -/
def env64 : Env := ⟨64, fun _ _ => none⟩

/-- The FTP server started by a run, if any. -/
def Result.ftp : Result → Option FtpServer
  | .fatal _ => none
  | .serving ftp _ => ftp

/-- The HTTP server started by a run, if any. -/
def Result.http : Result → Option HttpServer
  | .fatal _ => none
  | .serving _ http => http

/-- A storage handle among the arguments of a frontend constructor. -/
inductive Handle where
  | dfs (d : DFS)
  | mgr (m : Manager)
  | db (c : DbConn)
  deriving DecidableEq

/-- The storage handles in `ftp.New(dfs, addr, ptr, username, password)`. -/
def FtpServer.handles (s : FtpServer) : List Handle := [.dfs s.dfs]

/-- The storage handles in `http.New(addr, dbConn, mgr)`. -/
def HttpServer.handles (s : HttpServer) : List Handle := [.db s.db, .mgr s.mgr]

/-- The storage handles received by each frontend a run starts. -/
def Result.frontendHandles (r : Result) : List (List Handle) :=
  (r.ftp.map FtpServer.handles).toList ++ (r.http.map HttpServer.handles).toList

/-- The credentials each frontend a run starts is constructed with: the
username and password among the arguments of its constructor, if any. -/
def Result.frontendCredentials (r : Result) : List (Option (GoString × GoString)) :=
  (r.ftp.map fun s => some (s.username, s.password)).toList ++
    (r.http.map fun _ => none).toList

/-- Flags with the chunk size 0. -/
def flagsChunkZero : Flags :=
  { defaultFlags ['d', 'b'] ['h'] with chunkSize := 0 }

/-- Flags with the chunk size of exactly 25 MiB. -/
def flagsChunkLimit : Flags :=
  { defaultFlags ['d', 'b'] ['h'] with chunkSize := 26214400 }

/-- Flags that start both frontends, with credentials. -/
def flagsBoth (user pass : GoString) : Flags :=
  { defaultFlags ['d', 'b'] ['h'] with
    HTTPAddr := [':', '8', '0'], username := user, password := pass }

/-- Default flags with the passive port range `pr`. -/
def flagsPortRange (pr : GoString) : Flags :=
  { defaultFlags ['d', 'b'] ['h'] with FTPPortRange := pr }

/-! ## The four ways a run of `main` can go -/

/-- The constructor calls of a run that reaches `fs.New`. -/
def callsUpToDFS (fl : Flags) : List Call :=
  [Call.dbNew fl.dbConnStr false,
   Call.NewManager fl.chunkSize (Split fl.webhooks ','),
   Call.fsNew ⟨fl.dbConnStr, false⟩ ⟨fl.chunkSize, Split fl.webhooks ','⟩]

/-- The DFS object a run creates. -/
def dfsOf (fl : Flags) : DFS :=
  ⟨⟨fl.dbConnStr, false⟩, ⟨fl.chunkSize, Split fl.webhooks ','⟩⟩

theorem main_of_invalid (env : Env) (fl : Flags)
    (h : fl.chunkSize > 25 * 1024 * 1024 ∨ fl.chunkSize < 0) :
    main env fl = ⟨[], .fatal .invalidChunkSize⟩ := by
  unfold main
  rw [if_pos h]

theorem main_of_mgrErr (env : Env) (fl : Flags) (err : GoString)
    (h : ¬ (fl.chunkSize > 25 * 1024 * 1024 ∨ fl.chunkSize < 0))
    (hm : env.NewManagerErr fl.chunkSize (Split fl.webhooks ',') = some err) :
    main env fl =
      ⟨(callsUpToDFS fl).take 2, .fatal (.failedToOpenMgr err)⟩ := by
  unfold main
  rw [if_neg h]
  simp only [hm]
  rfl

theorem main_of_scanErr (env : Env) (fl : Flags) (err : ScanError)
    (h : ¬ (fl.chunkSize > 25 * 1024 * 1024 ∨ fl.chunkSize < 0))
    (hm : env.NewManagerErr fl.chunkSize (Split fl.webhooks ',') = none)
    (hp : portRange env.intBits fl.FTPPortRange = .error err) :
    main env fl = ⟨callsUpToDFS fl, .fatal (.badFtpPortRange err)⟩ := by
  unfold main
  rw [if_neg h]
  simp only [hm, hp]
  rfl

theorem main_of_ok (env : Env) (fl : Flags) (ptr : Option PortRange)
    (h : ¬ (fl.chunkSize > 25 * 1024 * 1024 ∨ fl.chunkSize < 0))
    (hm : env.NewManagerErr fl.chunkSize (Split fl.webhooks ',') = none)
    (hp : portRange env.intBits fl.FTPPortRange = .ok ptr) :
    main env fl = ⟨callsUpToDFS fl, .serving
      (if fl.FTPAddr ≠ [] then
        some ⟨dfsOf fl, fl.FTPAddr, ptr, fl.username, fl.password⟩ else none)
      (if fl.HTTPAddr ≠ [] then
        some ⟨fl.HTTPAddr, ⟨fl.dbConnStr, false⟩, ⟨fl.chunkSize, Split fl.webhooks ','⟩⟩
        else none)⟩ := by
  unfold main
  rw [if_neg h]
  simp only [hm, hp]
  rfl

/-- Every run of `main` is of one of the four kinds. -/
theorem main_cases (env : Env) (fl : Flags) :
    ((fl.chunkSize > 25 * 1024 * 1024 ∨ fl.chunkSize < 0) ∧
      main env fl = ⟨[], .fatal .invalidChunkSize⟩) ∨
    (¬ (fl.chunkSize > 25 * 1024 * 1024 ∨ fl.chunkSize < 0) ∧
      ((∃ err, main env fl = ⟨(callsUpToDFS fl).take 2, .fatal (.failedToOpenMgr err)⟩) ∨
       (∃ err, portRange env.intBits fl.FTPPortRange = .error err ∧
          main env fl = ⟨callsUpToDFS fl, .fatal (.badFtpPortRange err)⟩) ∨
       (∃ ptr, portRange env.intBits fl.FTPPortRange = .ok ptr ∧
          main env fl = ⟨callsUpToDFS fl, .serving
            (if fl.FTPAddr ≠ [] then
              some ⟨dfsOf fl, fl.FTPAddr, ptr, fl.username, fl.password⟩ else none)
            (if fl.HTTPAddr ≠ [] then
              some ⟨fl.HTTPAddr, ⟨fl.dbConnStr, false⟩,
                ⟨fl.chunkSize, Split fl.webhooks ','⟩⟩
              else none)⟩))) := by
  by_cases h : fl.chunkSize > 25 * 1024 * 1024 ∨ fl.chunkSize < 0
  · exact Or.inl ⟨h, main_of_invalid env fl h⟩
  · refine Or.inr ⟨h, ?_⟩
    cases hm : env.NewManagerErr fl.chunkSize (Split fl.webhooks ',') with
    | some err => exact Or.inl ⟨err, main_of_mgrErr env fl err h hm⟩
    | none =>
      cases hp : portRange env.intBits fl.FTPPortRange with
      | error e => exact Or.inr (Or.inl ⟨e, rfl, main_of_scanErr env fl e h hm hp⟩)
      | ok ptr => exact Or.inr (Or.inr ⟨ptr, rfl, main_of_ok env fl ptr h hm hp⟩)

/-! ## Chunk size validation -/

/-- C1: `main` ends with the fatal `invalid chunkSize` error if and only if
the chunk size is above `25*1024*1024` or negative; otherwise the database
connection is opened and `ddrv.NewManager` is called with exactly that chunk
size; and every call of `ddrv.NewManager` has a chunk size of at most 25 MiB. -/
theorem main_invalidChunkSize_iff (env : Env) (fl : Flags) :
    ((main env fl).result = .fatal .invalidChunkSize ↔
      (fl.chunkSize > 26214400 ∨ fl.chunkSize < 0)) ∧
    (¬ (fl.chunkSize > 26214400 ∨ fl.chunkSize < 0) →
      (main env fl).calls.take 2 =
        [Call.dbNew fl.dbConnStr false,
         Call.NewManager fl.chunkSize (Split fl.webhooks ',')]) ∧
    (∀ c hooks, Call.NewManager c hooks ∈ (main env fl).calls →
      c = fl.chunkSize ∧ c ≤ 26214400) ∧
    (∀ s, (main env fl).result.ftp = some s → s.dfs.mgr.chunkSize = fl.chunkSize) ∧
    (∀ s, (main env fl).result.http = some s → s.mgr.chunkSize = fl.chunkSize) := by
  rcases main_cases env fl with ⟨h, hr⟩ | ⟨h, ⟨err, hr⟩ | ⟨err, _, hr⟩ | ⟨ptr, _, hr⟩⟩
  · have h2 : fl.chunkSize > 26214400 ∨ fl.chunkSize < 0 := by omega
    simp [hr, h2, Result.ftp, Result.http]
  · have h2 : ¬ (fl.chunkSize > 26214400 ∨ fl.chunkSize < 0) := by omega
    have h3 : fl.chunkSize ≤ 26214400 := by omega
    simp [hr, h2, h3, Result.ftp, Result.http, callsUpToDFS]
  · have h2 : ¬ (fl.chunkSize > 26214400 ∨ fl.chunkSize < 0) := by omega
    have h3 : fl.chunkSize ≤ 26214400 := by omega
    simp [hr, h2, h3, Result.ftp, Result.http, callsUpToDFS]
  · have h2 : ¬ (fl.chunkSize > 26214400 ∨ fl.chunkSize < 0) := by omega
    have h3 : fl.chunkSize ≤ 26214400 := by omega
    rw [hr]
    refine ⟨by simp [h2], by simp [callsUpToDFS], by simp [h3, callsUpToDFS], ?_, ?_⟩
    · intro s hs
      simp only [Result.ftp] at hs
      split at hs <;> simp at hs
      rw [← hs]; rfl
    · intro s hs
      simp only [Result.http] at hs
      split at hs <;> simp at hs
      rw [← hs]

/-- Witness of C1: the default chunk size passes the validation and reaches
`ddrv.NewManager` unchanged. -/
theorem main_invalidChunkSize_iff_witness :
    ¬ ((defaultFlags [] []).chunkSize > 26214400 ∨ (defaultFlags [] []).chunkSize < 0) ∧
    (main env64 (defaultFlags [] [])).calls.take 2 =
      [Call.dbNew [] false, Call.NewManager 25165824 [[]]] :=
  ⟨by decide, (main_invalidChunkSize_iff env64 (defaultFlags [] [])).2.1 (by decide)⟩

/-- C3 (failing input): The chunk size 0 passes the validation of `main`:
the run does not end with `invalid chunkSize`, and `ddrv.NewManager` is
called with the maximum chunk size 0. -/
theorem main_accepts_chunkSize_zero (env : Env) :
    (main env flagsChunkZero).result ≠ .fatal .invalidChunkSize ∧
    Call.NewManager 0 [['h']] ∈ (main env flagsChunkZero).calls ∧
    ¬ (1 ≤ flagsChunkZero.chunkSize) := by
  have hs : Split flagsChunkZero.webhooks ',' = [['h']] := by decide
  have hc : flagsChunkZero.chunkSize = 0 := rfl
  rcases main_cases env flagsChunkZero with
    ⟨h, _⟩ | ⟨_, ⟨err, hr⟩ | ⟨err, _, hr⟩ | ⟨ptr, _, hr⟩⟩
  · exact absurd h (by decide)
  · simp [hr, callsUpToDFS, hs, hc]
  · simp [hr, callsUpToDFS, hs, hc]
  · simp [hr, callsUpToDFS, hs, hc]

/-- C5 (failing input): A chunk size of exactly `25*1024*1024` bytes, which is
not below 25 MiB, passes the validation of `main`: the run does not end with
`invalid chunkSize`, and `ddrv.NewManager` is called with the maximum chunk
size 26214400. -/
theorem chunkSize_limit_accepted (env : Env) :
    (main env flagsChunkLimit).result ≠ .fatal .invalidChunkSize ∧
    Call.NewManager 26214400 [['h']] ∈ (main env flagsChunkLimit).calls ∧
    ¬ (flagsChunkLimit.chunkSize < 25 * 1024 * 1024) := by
  have hs : Split flagsChunkLimit.webhooks ',' = [['h']] := by decide
  have hc : flagsChunkLimit.chunkSize = 26214400 := rfl
  rcases main_cases env flagsChunkLimit with
    ⟨h, _⟩ | ⟨_, ⟨err, hr⟩ | ⟨err, _, hr⟩ | ⟨ptr, _, hr⟩⟩
  · exact absurd h (by decide)
  · simp [hr, callsUpToDFS, hs, hc]
  · simp [hr, callsUpToDFS, hs, hc]
  · simp [hr, callsUpToDFS, hs, hc]

/-! ## The frontends -/

/-- C2 (failing input): The HTTP server `main` starts does not depend on
the configured username and password: changing them in any configuration
leaves the HTTP server the same.  With both frontends started, the FTP
server is constructed with the credentials and the HTTP server with none,
and the configurations `a`/`x` and `b`/`y` build the same HTTP server but
different FTP servers. -/
theorem http_ignores_credentials (env : Env) (fl : Flags) (user pass : GoString) :
    (main env { fl with username := user, password := pass }).result.http =
      (main env fl).result.http ∧
    (main env64 (flagsBoth ['a'] ['x'])).result.frontendCredentials =
      [some (['a'], ['x']), none] ∧
    (main env64 (flagsBoth ['a'] ['x'])).result.http =
      (main env64 (flagsBoth ['b'] ['y'])).result.http ∧
    (main env64 (flagsBoth ['a'] ['x'])).result.http ≠ none ∧
    (main env64 (flagsBoth ['a'] ['x'])).result.ftp ≠
      (main env64 (flagsBoth ['b'] ['y'])).result.ftp := by
  refine ⟨?_, by decide, by decide, by decide, by decide⟩
  unfold main
  simp only []
  split
  · rfl
  · split
    · rfl
    · split
      · rfl
      · rfl

/-- C6 (counterexample): With both frontends started, the HTTP server is
not constructed over the DFS object, and it is handed the database connection
itself. -/
theorem http_not_built_on_dfs :
    (main env64 (flagsBoth [] [])).result.frontendHandles =
      [[Handle.dfs (dfsOf (flagsBoth [] []))],
       [Handle.db ⟨['d', 'b'], false⟩, Handle.mgr ⟨25165824, [['h']]⟩]] ∧
    ¬ (∀ hs ∈ (main env64 (flagsBoth [] [])).result.frontendHandles,
        Handle.dfs (dfsOf (flagsBoth [] [])) ∈ hs ∧
        Handle.db ⟨['d', 'b'], false⟩ ∉ hs) := by
  decide

/-- C6 (amended): The FTP server `main` starts receives one storage
handle, the DFS object created by `fs.New(dbConn, mgr)`; the HTTP server
receives the database connection and the chunk manager the DFS was created
from, and not the DFS object; and `fs.New` has been called on the two. -/
theorem frontend_handles (env : Env) (fl : Flags) :
    (∀ s, (main env fl).result.ftp = some s →
      s.handles = [Handle.dfs (dfsOf fl)] ∧
      Call.fsNew (dfsOf fl).db (dfsOf fl).mgr ∈ (main env fl).calls) ∧
    (∀ s, (main env fl).result.http = some s →
      s.handles = [Handle.db (dfsOf fl).db, Handle.mgr (dfsOf fl).mgr] ∧
      Call.fsNew (dfsOf fl).db (dfsOf fl).mgr ∈ (main env fl).calls) := by
  rcases main_cases env fl with ⟨_, hr⟩ | ⟨_, ⟨err, hr⟩ | ⟨err, _, hr⟩ | ⟨ptr, _, hr⟩⟩
  · simp [hr, Result.ftp, Result.http]
  · simp [hr, Result.ftp, Result.http]
  · simp [hr, Result.ftp, Result.http]
  · rw [hr]
    constructor
    · intro s hs
      simp only [Result.ftp] at hs
      split at hs <;> simp at hs
      rw [← hs]
      simp [FtpServer.handles, callsUpToDFS, dfsOf]
    · intro s hs
      simp only [Result.http] at hs
      split at hs <;> simp at hs
      rw [← hs]
      simp [HttpServer.handles, callsUpToDFS, dfsOf]

/-- Witness of the amended C6, with both frontends started. -/
theorem frontend_handles_witness :
    (main env64 (flagsBoth [] [])).result.http =
      some ⟨[':', '8', '0'], ⟨['d', 'b'], false⟩, ⟨25165824, [['h']]⟩⟩ ∧
    ((⟨[':', '8', '0'], ⟨['d', 'b'], false⟩, ⟨25165824, [['h']]⟩⟩ : HttpServer).handles =
        [Handle.db (dfsOf (flagsBoth [] [])).db, Handle.mgr (dfsOf (flagsBoth [] [])).mgr] ∧
      Call.fsNew (dfsOf (flagsBoth [] [])).db (dfsOf (flagsBoth [] [])).mgr ∈
        (main env64 (flagsBoth [] [])).calls) :=
  ⟨by decide, (frontend_handles env64 (flagsBoth [] [])).2 _ (by decide)⟩

/-- C8: For every configuration that passes validation (the chunk size is
valid, `ddrv.NewManager` succeeds and the port range scans), startup reaches
the start of the servers: the FTP server is started if and only if
`--ftpaddr` is not empty and the HTTP server if and only if `--httpaddr` is
not empty, each on its configured address; with the default flags the FTP
server on `:2525` is started and no HTTP server; and with both addresses
empty no server is started and nothing is ever sent on `errCh`. -/
theorem servers_started_iff (env : Env) (fl : Flags) (ptr : Option PortRange)
    (hc : ¬ (fl.chunkSize > 25 * 1024 * 1024 ∨ fl.chunkSize < 0))
    (hm : env.NewManagerErr fl.chunkSize (Split fl.webhooks ',') = none)
    (hp : portRange env.intBits fl.FTPPortRange = .ok ptr) :
    (main env fl).result = .serving
      (if fl.FTPAddr ≠ [] then
        some ⟨dfsOf fl, fl.FTPAddr, ptr, fl.username, fl.password⟩ else none)
      (if fl.HTTPAddr ≠ [] then
        some ⟨fl.HTTPAddr, ⟨fl.dbConnStr, false⟩, ⟨fl.chunkSize, Split fl.webhooks ','⟩⟩
        else none) ∧
    ((main env fl).result.ftp.isSome ↔ fl.FTPAddr ≠ []) ∧
    (∀ s, (main env fl).result.ftp = some s → s.addr = fl.FTPAddr) ∧
    ((main env fl).result.http.isSome ↔ fl.HTTPAddr ≠ []) ∧
    (∀ s, (main env fl).result.http = some s → s.addr = fl.HTTPAddr) ∧
    (fl = defaultFlags fl.dbConnStr fl.webhooks →
      (main env fl).result =
        .serving (some ⟨dfsOf fl, [':', '2', '5', '2', '5'], none, [], []⟩) none) ∧
    (fl.FTPAddr = [] → fl.HTTPAddr = [] →
      (main env fl).result = .serving none none ∧
      ∀ se : ServeEnv, errChSends (main env fl).result se = []) := by
  have hr := main_of_ok env fl ptr hc hm hp
  rw [hr]
  refine ⟨rfl, ?_, ?_, ?_, ?_, ?_, ?_⟩
  · by_cases ha : fl.FTPAddr = [] <;> simp [ha, Result.ftp]
  · intro s hs
    simp only [Result.ftp] at hs
    split at hs <;> simp at hs
    rw [← hs]
  · by_cases ha : fl.HTTPAddr = [] <;> simp [ha, Result.http]
  · intro s hs
    simp only [Result.http] at hs
    split at hs <;> simp at hs
    rw [← hs]
  · intro hd
    have h1 : fl.FTPAddr = [':', '2', '5', '2', '5'] := by rw [hd]; rfl
    have h2 : fl.HTTPAddr = [] := by rw [hd]; rfl
    have h3 : fl.FTPPortRange = [] := by rw [hd]; rfl
    have h4 : fl.username = [] := by rw [hd]; rfl
    have h5 : fl.password = [] := by rw [hd]; rfl
    have h6 : ptr = none := by
      rw [h3] at hp
      simp [portRange] at hp
      exact hp.symm
    simp [h1, h2, h4, h5, h6]
  · intro ha hb
    simp [ha, hb, errChSends]

/-- Witness of C8: with `--httpaddr :80` next to the default `--ftpaddr`, on a
platform where the manager opens, both servers are started. -/
theorem servers_started_iff_witness :
    (¬ ((flagsBoth [] []).chunkSize > 25 * 1024 * 1024 ∨ (flagsBoth [] []).chunkSize < 0)) ∧
    env64.NewManagerErr (flagsBoth [] []).chunkSize
      (Split (flagsBoth [] []).webhooks ',') = none ∧
    portRange env64.intBits (flagsBoth [] []).FTPPortRange = .ok none ∧
    (main env64 (flagsBoth [] [])).result = .serving
      (some ⟨dfsOf (flagsBoth [] []), [':', '2', '5', '2', '5'], none, [], []⟩)
      (some ⟨[':', '8', '0'], ⟨['d', 'b'], false⟩, ⟨25165824, [['h']]⟩⟩) ∧
    (((main env64 (flagsBoth [] [])).result.ftp.isSome ↔ (flagsBoth [] []).FTPAddr ≠ []) ∧
     (∀ s, (main env64 (flagsBoth [] [])).result.ftp = some s →
        s.addr = (flagsBoth [] []).FTPAddr) ∧
     ((main env64 (flagsBoth [] [])).result.http.isSome ↔ (flagsBoth [] []).HTTPAddr ≠ []) ∧
     (∀ s, (main env64 (flagsBoth [] [])).result.http = some s →
        s.addr = (flagsBoth [] []).HTTPAddr)) :=
  ⟨by decide, rfl, by decide, by decide,
    (servers_started_iff env64 (flagsBoth [] []) none (by decide) rfl (by decide)).2.1,
    (servers_started_iff env64 (flagsBoth [] []) none (by decide) rfl (by decide)).2.2.1,
    (servers_started_iff env64 (flagsBoth [] []) none (by decide) rfl (by decide)).2.2.2.1,
    (servers_started_iff env64 (flagsBoth [] []) none (by decide) rfl (by decide)).2.2.2.2.1⟩

/-! ## The endpoint list -/

theorem Count_eq_count (s : GoString) (sep : Char) : Count s sep = s.count sep := by
  induction s with
  | nil => rfl
  | cons c cs ih =>
    by_cases h : c = sep
    · simp [Count, h, ih, Nat.add_comm]
    · simp [Count, h, ih, List.count_cons]

theorem Count_le_length (s : GoString) (sep : Char) : Count s sep ≤ s.length := by
  induction s with
  | nil => simp [Count]
  | cons c cs ih =>
    simp only [Count, List.length_cons]
    split <;> omega

theorem Index_none (sep : Char) : ∀ s : GoString, Index s sep = none → sep ∉ s := by
  intro s
  induction s with
  | nil => simp
  | cons c cs ih =>
    intro h
    by_cases hc : c = sep
    · simp [Index, hc] at h
    · simp only [Index, hc, if_false, Option.map_eq_none'] at h
      simp only [List.mem_cons, not_or]
      exact ⟨fun e => hc e.symm, ih h⟩

theorem Index_some (sep : Char) : ∀ (s : GoString) (m : Nat), Index s sep = some m →
    sep ∉ s.take m ∧ s = s.take m ++ sep :: s.drop (m + 1) ∧
      Count s sep = Count (s.drop (m + 1)) sep + 1 := by
  intro s
  induction s with
  | nil => intro m h; simp [Index] at h
  | cons c cs ih =>
    intro m h
    by_cases hc : c = sep
    · simp only [Index, hc, if_true, Option.some.injEq] at h
      subst h
      simp [hc, Count, Nat.add_comm]
    · simp only [Index, hc, if_false, Option.map_eq_some'] at h
      obtain ⟨m0, hm0, rfl⟩ := h
      obtain ⟨h1, h2, h3⟩ := ih m0 hm0
      refine ⟨?_, ?_, ?_⟩
      · simp only [List.take_succ_cons, List.mem_cons, not_or]
        exact ⟨fun e => hc e.symm, h1⟩
      · simp only [List.take_succ_cons, List.drop_succ_cons, List.cons_append]
        rw [← h2]
      · simp only [Count, hc, if_false, List.drop_succ_cons]
        omega

theorem Join_cons_cons (e e1 : GoString) (es : List GoString) (sep : GoString) :
    Join (e :: e1 :: es) sep = e ++ sep ++ Join (e1 :: es) sep := by
  cases es with
  | nil => simp [Join]
  | cons e2 es => simp [Join]

theorem genSplitLoop_ne_nil (sep : Char) (k : Nat) (s : GoString) :
    genSplitLoop sep k s ≠ [] := by
  cases k with
  | zero => simp [genSplitLoop]
  | succ k =>
    simp only [genSplitLoop]
    split <;> simp

theorem genSplitLoop_spec (sep : Char) : ∀ (k : Nat) (s : GoString), Count s sep = k →
    (genSplitLoop sep k s).length = k + 1 ∧
    (∀ e ∈ genSplitLoop sep k s, sep ∉ e) ∧
    Join (genSplitLoop sep k s) [sep] = s := by
  intro k
  induction k with
  | zero =>
    intro s hs
    have hn : sep ∉ s := by
      rw [Count_eq_count] at hs
      exact List.count_eq_zero.mp hs
    simp [genSplitLoop, Join, hn]
  | succ k ih =>
    intro s hs
    cases hi : Index s sep with
    | none =>
      have hn : sep ∉ s := Index_none sep s hi
      rw [Count_eq_count, List.count_eq_zero.mpr hn] at hs
      omega
    | some m =>
      obtain ⟨h1, h2, h3⟩ := Index_some sep s m hi
      have hk : Count (s.drop (m + 1)) sep = k := by omega
      obtain ⟨i1, i2, i3⟩ := ih (s.drop (m + 1)) hk
      simp only [genSplitLoop, hi]
      refine ⟨by simp [i1], ?_, ?_⟩
      · intro e he
        simp only [List.mem_cons] at he
        rcases he with rfl | he
        · exact h1
        · exact i2 e he
      · obtain ⟨e1, es, hes⟩ := List.exists_cons_of_ne_nil
          (genSplitLoop_ne_nil sep k (s.drop (m + 1)))
        rw [hes, Join_cons_cons, ← hes, i3]
        simp only [List.append_assoc, List.singleton_append]
        exact h2.symm

/-- C4: The endpoint list handed to `ddrv.NewManager` is
`strings.Split(webhooks, ",")`, and for every string `w` this list has one
entry more than `w` has commas, no entry contains a comma, and joining the
entries with `,` gives back `w` (so the entries are the comma separated
fields of `w`, in their order). -/
theorem webhooks_split (env : Env) (fl : Flags) :
    (∀ c hooks, Call.NewManager c hooks ∈ (main env fl).calls →
      hooks = Split fl.webhooks ',') ∧
    (∀ s, (main env fl).result.ftp = some s →
      s.dfs.mgr.webhooks = Split fl.webhooks ',') ∧
    (Split fl.webhooks ',').length = fl.webhooks.count ',' + 1 ∧
    (∀ e ∈ Split fl.webhooks ',', ',' ∉ e) ∧
    Join (Split fl.webhooks ',') [','] = fl.webhooks := by
  have hsplit : Split fl.webhooks ',' =
      genSplitLoop ',' (Count fl.webhooks ',') fl.webhooks := by
    have hle := Count_le_length fl.webhooks ','
    simp only [Split, genSplit]
    rw [if_neg (by omega)]
    rfl
  obtain ⟨h1, h2, h3⟩ := genSplitLoop_spec ',' _ fl.webhooks rfl
  refine ⟨?_, ?_, ?_, ?_, ?_⟩
  · rcases main_cases env fl with ⟨_, hr⟩ | ⟨_, ⟨err, hr⟩ | ⟨err, _, hr⟩ | ⟨ptr, _, hr⟩⟩ <;>
      simp [hr, callsUpToDFS]
  · rcases main_cases env fl with ⟨_, hr⟩ | ⟨_, ⟨err, hr⟩ | ⟨err, _, hr⟩ | ⟨ptr, _, hr⟩⟩
    · simp [hr, Result.ftp]
    · simp [hr, Result.ftp]
    · simp [hr, Result.ftp]
    · rw [hr]
      intro s hs
      simp only [Result.ftp] at hs
      split at hs <;> simp at hs
      rw [← hs]; rfl
  · rw [hsplit, h1, Count_eq_count]
  · rw [hsplit]; exact h2
  · rw [hsplit]; exact h3

/-- Witness of C4: a list of two webhooks. -/
theorem webhooks_split_witness :
    Call.NewManager 25165824 [['u'], ['v']] ∈
      (main env64 (defaultFlags [] ['u', ',', 'v'])).calls ∧
    [['u'], ['v']] = Split (defaultFlags [] ['u', ',', 'v']).webhooks ',' :=
  ⟨by decide,
    (webhooks_split env64 (defaultFlags [] ['u', ',', 'v'])).1
      25165824 [['u'], ['v']] (by decide)⟩

/-! ## The passive port range -/

theorem digitChar_mem (d : Nat) (h : d < 10) : digitChar d ∈ decimalDigits := by
  interval_cases d <;> decide

theorem digitChar_toNat (d : Nat) (h : d < 10) : (digitChar d).toNat = 48 + d := by
  interval_cases d <;> rfl

theorem digit_facts (c : Char) (h : c ∈ decimalDigits) :
    c ≠ '\r' ∧ c ≠ '\n' ∧ isSpace c = false ∧ c ∉ sign ∧ c ≠ '+' ∧ c ≠ '-' ∧
      48 ≤ c.toNat ∧ c.toNat ≤ 57 := by
  simp only [decimalDigits, List.mem_cons, List.mem_singleton, List.not_mem_nil, or_false] at h
  rcases h with rfl | rfl | rfl | rfl | rfl | rfl | rfl | rfl | rfl | rfl <;> decide

theorem decimalLoop_acc : ∀ (k n : Nat) (acc : List Char),
    decimalLoop k n acc = decimalLoop k n [] ++ acc := by
  intro k
  induction k with
  | zero => intro n acc; simp [decimalLoop]
  | succ k ih =>
    intro n acc
    simp only [decimalLoop]
    split
    · simp
    · rw [ih (n / 10) (digitChar (n % 10) :: acc), ih (n / 10) [digitChar (n % 10)]]
      simp

theorem decimalLoop_fuel : ∀ (k k1 n : Nat) (acc : List Char), n < k → n < k1 →
    decimalLoop k n acc = decimalLoop k1 n acc := by
  intro k
  induction k with
  | zero => intro k1 n acc h; omega
  | succ k ih =>
    intro k1 n acc h h1
    cases k1 with
    | zero => omega
    | succ k1 =>
      simp only [decimalLoop]
      split
      · rfl
      · exact ih k1 (n / 10) _ (by omega) (by omega)

theorem decimal_small (n : Nat) (h : n < 10) : decimal n = [digitChar n] := by
  simp [decimal, decimalLoop, h]

theorem decimal_step (n : Nat) (h : 10 ≤ n) :
    decimal n = decimal (n / 10) ++ [digitChar (n % 10)] := by
  have h1 : ¬ n < 10 := by omega
  have h2 : decimalLoop (n + 1) n [] = decimalLoop n (n / 10) [digitChar (n % 10)] := by
    simp only [decimalLoop, h1, if_false]
  unfold decimal
  rw [h2, decimalLoop_acc, decimalLoop_fuel n (n / 10 + 1) (n / 10) [] (by omega) (by omega)]

theorem decimal_digits : ∀ (n : Nat), ∀ c ∈ decimal n, c ∈ decimalDigits := by
  intro n
  induction n using Nat.strong_induction_on with
  | _ n ih =>
    intro c hc
    by_cases h : n < 10
    · rw [decimal_small n h] at hc
      simp only [List.mem_singleton] at hc
      rw [hc]; exact digitChar_mem n h
    · rw [decimal_step n (by omega)] at hc
      simp only [List.mem_append, List.mem_singleton] at hc
      rcases hc with hc | hc
      · exact ih (n / 10) (by omega) c hc
      · rw [hc]; exact digitChar_mem _ (by omega)

theorem decimal_ne_nil (n : Nat) : decimal n ≠ [] := by
  by_cases h : n < 10
  · rw [decimal_small n h]; simp
  · rw [decimal_step n (by omega)]; simp

theorem decimal_length : ∀ (k n : Nat), n < 10 ^ (k + 1) → (decimal n).length ≤ k + 1 := by
  intro k
  induction k with
  | zero =>
    intro n hn
    rw [decimal_small n (by simpa using hn)]
    simp
  | succ k ih =>
    intro n hn
    by_cases h : n < 10
    · rw [decimal_small n h]; simp
    · rw [decimal_step n (by omega)]
      have h2 : n / 10 < 10 ^ (k + 1) := by
        rw [Nat.div_lt_iff_lt_mul (by norm_num)]
        rw [pow_succ] at hn
        exact hn
      have := ih (n / 10) h2
      simp only [List.length_append, List.length_singleton]
      omega

theorem ParseUintLoop_decimal : ∀ (n : Nat), n < 2 ^ 64 → ∀ rest : List Char,
    ParseUintLoop (2 ^ 64 - 1) ((2 ^ 64 - 1) / 10 + 1) (decimal n ++ rest) 0 =
      ParseUintLoop (2 ^ 64 - 1) ((2 ^ 64 - 1) / 10 + 1) rest n := by
  intro n
  induction n using Nat.strong_induction_on with
  | _ n ih =>
    intro hn rest
    have hz : '0'.toNat = 48 := rfl
    have hnine : '9'.toNat = 57 := rfl
    by_cases h : n < 10
    · rw [decimal_small n h]
      simp only [List.singleton_append, ParseUintLoop, hz, hnine, digitChar_toNat n h]
      norm_num at hn ⊢
      rw [if_pos (by omega)]
      have e : n % 18446744073709551616 = n := by omega
      rw [e, if_neg (by omega)]
    · rw [decimal_step n (by omega), List.append_assoc, ih (n / 10) (by omega) (by omega)]
      have hd : n % 10 < 10 := by omega
      simp only [List.singleton_append, ParseUintLoop, hz, hnine, digitChar_toNat _ hd]
      norm_num at hn ⊢
      rw [if_pos (by omega), if_neg (by omega)]
      have e : (n / 10 * 10 + n % 10) % 18446744073709551616 = n := by omega
      have e2 : n / 10 * 10 % 18446744073709551616 = n / 10 * 10 := by omega
      rw [e, e2, if_neg (by omega)]

theorem ParseUint_decimal (n : Nat) (hn : n < 2 ^ 64) : ParseUint (decimal n) = (n, none) := by
  have h := ParseUintLoop_decimal n hn []
  rw [List.append_nil] at h
  simp only [ParseUint, decimal_ne_nil n, if_false]
  rw [h]
  rfl

theorem ParseInt_decimal (n : Nat) (hn : n < 2 ^ 63) :
    ParseInt (decimal n) = ((n : Int), none) := by
  have hu := ParseUint_decimal n (by omega)
  have hd := decimal_digits n
  cases hl : decimal n with
  | nil => exact absurd hl (decimal_ne_nil n)
  | cons c l =>
    rw [hl] at hu hd
    obtain ⟨_, _, _, _, h5, h6, _, _⟩ := digit_facts c (hd c (by simp))
    simp only [ParseInt, h5, h6, if_false, hu]
    have h8 : n < 9223372036854775808 := by norm_num at hn; exact hn
    simp [h8]

theorem wrap_check (bits : Nat) (hb : bits = 32 ∨ bits = 64) (n : Nat)
    (hn : n < 2 ^ (bits - 1)) :
    wrap64 ((n : Int) * 2 ^ (64 - bits)) / 2 ^ (64 - bits) = (n : Int) := by
  rcases hb with rfl | rfl
  · norm_num [wrap64] at hn ⊢
    omega
  · norm_num [wrap64] at hn ⊢
    omega

theorem SkipSpace_digit (c : Char) (rest : List Char) (h : c ∈ decimalDigits) :
    SkipSpace (c :: rest) = .ok (c :: rest) := by
  obtain ⟨h1, h2, h3, _⟩ := digit_facts c h
  simp [SkipSpace, h1, h2, h3]

theorem acceptLoop_append (ok : List Char) : ∀ (l rest buf : List Char),
    (∀ c ∈ l, c ∈ ok) → acceptLoop ok (l ++ rest) buf = acceptLoop ok rest (buf ++ l) := by
  intro l
  induction l with
  | nil => intro rest buf _; simp
  | cons c l ih =>
    intro rest buf h
    have hc : c ∈ ok := h c (by simp)
    rw [List.cons_append, acceptLoop, if_pos hc,
      ih rest (buf ++ [c]) (fun x hx => h x (by simp [hx]))]
    simp

theorem acceptLoop_stop (ok rest buf : List Char)
    (h : ∀ c, rest.head? = some c → c ∉ ok) : acceptLoop ok rest buf = ⟨rest, buf⟩ := by
  cases rest with
  | nil => rfl
  | cons c l =>
    have hc : c ∉ ok := h c rfl
    simp [acceptLoop, hc]

theorem scanInt_decimal (bits : Nat) (hb : bits = 32 ∨ bits = 64) (n : Nat)
    (hn : n < 2 ^ (bits - 1)) (rest : List Char)
    (hrest : ∀ c, rest.head? = some c → c ∉ decimalDigits) :
    scanInt bits (decimal n ++ rest) = .ok ((n : Int), ⟨rest, decimal n⟩) := by
  have hn63 : n < 2 ^ 63 := by
    rcases hb with rfl | rfl
    · norm_num at hn ⊢; omega
    · exact hn
  have hp := ParseInt_decimal n hn63
  have hd := decimal_digits n
  have hw := wrap_check bits hb n hn
  cases hl : decimal n with
  | nil => exact absurd hl (decimal_ne_nil n)
  | cons c l =>
    rw [hl] at hp hd
    have hc : c ∈ decimalDigits := hd c (by simp)
    obtain ⟨_, _, _, h4, _⟩ := digit_facts c hc
    have hloop : acceptLoop decimalDigits (l ++ rest) [c] = ⟨rest, c :: l⟩ := by
      rw [acceptLoop_append decimalDigits l rest [c] (fun x hx => hd x (by simp [hx]))]
      exact acceptLoop_stop decimalDigits rest _ hrest
    simp only [scanInt, List.cons_append, SkipSpace_digit c (l ++ rest) hc]
    simp only [accept, h4, if_false, scanNumber, hc, if_true]
    simp [hloop, hp, hw]

theorem SkipSpace_decimal (n : Nat) (rest : List Char) :
    SkipSpace (decimal n ++ rest) = .ok (decimal n ++ rest) := by
  have hd := decimal_digits n
  cases hl : decimal n with
  | nil => exact absurd hl (decimal_ne_nil n)
  | cons c l =>
    rw [hl] at hd
    exact SkipSpace_digit c (l ++ rest) (hd c (by simp))

theorem doScanf_decimal (bits : Nat) (hb : bits = 32 ∨ bits = 64) (a b : Nat)
    (ha : a < 2 ^ (bits - 1)) (hb1 : b < 2 ^ (bits - 1)) :
    doScanf bits (decimal a ++ '-' :: decimal b) = .ok ((a : Int), (b : Int)) := by
  have h1 := scanInt_decimal bits hb a ha ('-' :: decimal b)
    (by intro c hc; simp only [List.head?_cons, Option.some.injEq] at hc; rw [← hc]; decide)
  have h2 := scanInt_decimal bits hb b hb1 [] (by simp)
  rw [List.append_nil] at h2
  have h3 := SkipSpace_decimal b []
  rw [List.append_nil] at h3
  simp [doScanf, SkipSpace_decimal, h1, h2, h3]

theorem decimal_length_le (bits : Nat) (hb : bits = 32 ∨ bits = 64) (a : Nat)
    (ha : a < 2 ^ (bits - 1)) : (decimal a).length ≤ 19 := by
  apply decimal_length 18 a
  rcases hb with rfl | rfl <;> norm_num at ha ⊢ <;> omega

theorem Sscanf_decimal (bits : Nat) (hb : bits = 32 ∨ bits = 64) (a b : Nat)
    (ha : a < 2 ^ (bits - 1)) (hb1 : b < 2 ^ (bits - 1)) :
    Sscanf bits (decimal a ++ '-' :: decimal b) = .ok ((a : Int), (b : Int)) := by
  have la := decimal_length_le bits hb a ha
  have lb := decimal_length_le bits hb b hb1
  have hlen : (decimal a ++ '-' :: decimal b).length ≤ hugeWid := by
    simp only [List.length_append, List.length_cons, hugeWid]
    norm_num
    omega
  rw [Sscanf, List.take_of_length_le hlen]
  exact doScanf_decimal bits hb a b ha hb1

/-- C7: In a run that reaches the parsing of `--ftppr`: when the string is
the decimal digits of `a`, a `-` and the decimal digits of `b`, for naturals
`a`, `b` that fit an `int`, startup goes on and the FTP server (started when
`--ftpaddr` is not empty) is constructed with the port range `a`-`b`; when
the string is empty, the FTP server is constructed with no port range; and
when the string is not empty and the scan of the two integers separated by
`-` fails, startup ends with the fatal `bad ftp port range` error. -/
theorem ftp_port_range (env : Env) (fl : Flags)
    (hc : ¬ (fl.chunkSize > 25 * 1024 * 1024 ∨ fl.chunkSize < 0))
    (hm : env.NewManagerErr fl.chunkSize (Split fl.webhooks ',') = none) :
    (∀ a b : Nat, (env.intBits = 32 ∨ env.intBits = 64) →
      a < 2 ^ (env.intBits - 1) → b < 2 ^ (env.intBits - 1) →
      fl.FTPPortRange = decimal a ++ '-' :: decimal b →
      ∃ http, (main env fl).result = .serving
        (if fl.FTPAddr ≠ [] then
          some ⟨dfsOf fl, fl.FTPAddr, some ⟨(a : Int), (b : Int)⟩, fl.username, fl.password⟩
          else none) http) ∧
    (fl.FTPPortRange = [] →
      ∃ http, (main env fl).result = .serving
        (if fl.FTPAddr ≠ [] then
          some ⟨dfsOf fl, fl.FTPAddr, none, fl.username, fl.password⟩ else none) http) ∧
    (∀ err, fl.FTPPortRange ≠ [] → Sscanf env.intBits fl.FTPPortRange = .error err →
      (main env fl).result = .fatal (.badFtpPortRange err)) := by
  refine ⟨?_, ?_, ?_⟩
  · intro a b hb ha hb1 hpr
    have hne : fl.FTPPortRange ≠ [] := by
      rw [hpr]
      intro h
      simp at h
    have hp : portRange env.intBits fl.FTPPortRange = .ok (some ⟨(a : Int), (b : Int)⟩) := by
      rw [portRange, if_pos hne, hpr, Sscanf_decimal env.intBits hb a b ha hb1]
    rw [main_of_ok env fl _ hc hm hp]
    exact ⟨_, rfl⟩
  · intro hpr
    have hp : portRange env.intBits fl.FTPPortRange = .ok none := by
      rw [hpr]
      simp [portRange]
    rw [main_of_ok env fl _ hc hm hp]
    exact ⟨_, rfl⟩
  · intro err hne hs
    have hp : portRange env.intBits fl.FTPPortRange = .error err := by
      rw [portRange, if_pos hne, hs]
    rw [main_of_scanErr env fl err hc hm hp]

/-- Witness of C7: the port range `2000-3000` on a 64-bit platform; the
string `20:30` is a bad port range. -/
theorem ftp_port_range_witness :
    (¬ ((flagsPortRange ['2', '0', '0', '0', '-', '3', '0', '0', '0']).chunkSize >
          25 * 1024 * 1024 ∨
        (flagsPortRange ['2', '0', '0', '0', '-', '3', '0', '0', '0']).chunkSize < 0)) ∧
    (flagsPortRange ['2', '0', '0', '0', '-', '3', '0', '0', '0']).FTPPortRange =
      decimal 2000 ++ '-' :: decimal 3000 ∧
    (main env64 (flagsPortRange ['2', '0', '0', '0', '-', '3', '0', '0', '0'])).result.ftp =
      some ⟨dfsOf (flagsPortRange ['2', '0', '0', '0', '-', '3', '0', '0', '0']),
        [':', '2', '5', '2', '5'], some ⟨2000, 3000⟩, [], []⟩ ∧
    (main env64 (flagsPortRange ['2', '0', ':', '3', '0'])).result =
      .fatal (.badFtpPortRange .inputDoesNotMatchFormat) ∧
    (∃ http, (main env64
        (flagsPortRange ['2', '0', '0', '0', '-', '3', '0', '0', '0'])).result = .serving
      (if (flagsPortRange ['2', '0', '0', '0', '-', '3', '0', '0', '0']).FTPAddr ≠ [] then
        some ⟨dfsOf (flagsPortRange ['2', '0', '0', '0', '-', '3', '0', '0', '0']),
          (flagsPortRange ['2', '0', '0', '0', '-', '3', '0', '0', '0']).FTPAddr,
          some ⟨((2000 : Nat) : Int), ((3000 : Nat) : Int)⟩,
          (flagsPortRange ['2', '0', '0', '0', '-', '3', '0', '0', '0']).username,
          (flagsPortRange ['2', '0', '0', '0', '-', '3', '0', '0', '0']).password⟩
        else none) http) :=
  ⟨by decide, by decide, by decide, by decide,
    (ftp_port_range env64 (flagsPortRange ['2', '0', '0', '0', '-', '3', '0', '0', '0'])
      (by decide) rfl).1 2000 3000 (Or.inr rfl) (by decide) (by decide) (by decide)⟩

end Ddrv
